import Mathlib

/-!
Verification development for the SfPlayer streaming-audio engine
(src/opensles/libopensles/android_SfPlayer.cpp).

The player state and the message handlers (onPlay, onPause, onSeek,
onDecode, onRender, onCheckCache), the transport entry points
(play, pause, stop, seek), the cache estimator (getCacheRemaining) and
the data-locator management (setDataSource, resetDataLocator) are
embedded as pure Lean functions.  Handlers return the successor state
together with the list of externally visible effects (sink calls,
posted messages, notifications) they emit, in program order.

Machine-integer conventions of the C++ code are made explicit:
conversion of an int64_t value to uint32_t is reduction modulo 2^32,
and the cast of the computed fill level to int16_t is two^s-complement
wrap into [-32768, 32767].  The floating-point expression computing the
fill level, 1000.0 * (pos + remaining) / duration followed by
truncation to int16_t, is modelled exactly over the integers as
(1000 * (pos + remaining)) / duration: all quantities involved are
non-negative, so the truncation direction coincides with integer
division.  The unconditional division by mBitrate and the assertion
CHECK_GE(mBitrate, 0) in getCacheRemaining are modelled by an Except
failure (assertion failure, division by zero).
-/

namespace SfPlayer

/-- Conversion of an int64 value to uint32, as in the C++ casts inside
getPositionMsec and getCacheRemaining: reduction modulo 2^32. -/
def uint32OfInt (x : Int) : Nat := (x % 4294967296).toNat

/-- Cast of an integer to int16_t: wrap into [-32768, 32767]. -/
def int16OfInt (x : Int) : Int := (x + 32768) % 65536 - 32768

/-- Cache status enum of the player header: Empty, Low, Intermediate,
Enough, High, in increasing order. -/
inductive CacheStatus
  | empty
  | low
  | intermediate
  | enough
  | high
deriving DecidableEq

/-- Numeric value of the cache status, giving the order used by the
comparison status >= kStatusEnough in onCheckCache. -/
def CacheStatus.val : CacheStatus → Nat
  | .empty => 0
  | .low => 1
  | .intermediate => 2
  | .enough => 3
  | .high => 4

/-- Modelled from the spec: the threshold constants
DURATION_CACHED_HIGH_US, DURATION_CACHED_MED_US, DURATION_CACHED_LOW_US,
SIZE_CACHED_HIGH_BYTES, SIZE_CACHED_MED_BYTES, SIZE_CACHED_LOW_BYTES are
defined in the header android_SfPlayer.h, which is not part of the
sources; the spec describes them as tunable configuration, not contract,
so they are carried as parameters. -/
structure Config where
  durationCachedHighUs : Int
  durationCachedMedUs : Int
  durationCachedLowUs : Int
  sizeCachedHighBytes : Nat
  sizeCachedMedBytes : Nat
  sizeCachedLowBytes : Nat
deriving DecidableEq

/-- A concrete configuration used to instantiate witnesses, with the
time thresholds suggested by the spec (20 s, 15 s, 3 s). -/
def exampleConfig : Config where
  durationCachedHighUs := 20000000
  durationCachedMedUs := 15000000
  durationCachedLowUs := 3000000
  sizeCachedHighBytes := 1000000
  sizeCachedMedBytes := 700000
  sizeCachedLowBytes := 400000

/-- The tagged data locator: mDataLocatorType together with the active
member of the mDataLocator union. -/
inductive DataLocator
  | none
  | uri (s : String)
  | fd (fd : Int) (offset : Int) (length : Int)
deriving DecidableEq

/-- A decoded media buffer: its kKeyTime timestamp in microseconds and
the bytes of its sample range (data + range_offset, range_length). -/
structure Buffer where
  timeUs : Int
  rangeData : List Nat
deriving DecidableEq

/-- Externally visible effects of a handler, in program order: calls
into the AudioTrack sink, messages posted to the looper, and
notifications to the client. -/
inductive Event
  | sinkStart
  | sinkPause
  | sinkStop
  | sinkWrite (bytes : List Nat)
  | postPlay
  | postPause
  | postSeek (timeMsec : Int)
  | postDecode
  | postRender (delayUs : Int)
  | postCheckCache (delayUs : Int)
  | notifyStatus (status : CacheStatus)
  | notifyFill (fill : Int)
  | notifyEos
deriving DecidableEq

/-- Result of mAudioSource->read in onDecode: a decoded buffer, the
ERROR_END_OF_STREAM condition, or another error code. -/
inductive ReadResult
  | ok (buf : Buffer)
  | endOfStream
  | readErr (code : Int)
deriving DecidableEq

/-- Abnormal terminations of getCacheRemaining: the assertion
CHECK_GE(mBitrate, 0) failing, or the unconditional division
dataRemaining * 8000000 / mBitrate with mBitrate equal to zero. -/
inductive CacheFail
  | checkGeBitrate
  | divByZero
deriving DecidableEq

/-- The mutable player state: the mFlags bits (playing, buffering,
preparing, seeking), the fields of SfPlayer relevant to the verified
behaviour, and whether an AudioTrack sink is bound (mAudioTrack not
NULL). -/
structure State where
  mAudioTrack : Bool
  playing : Bool
  buffering : Bool
  preparing : Bool
  seeking : Bool
  mBitrate : Int
  mTimeDelta : Int
  mDurationUsec : Int
  mCacheStatus : CacheStatus
  mSeekTimeMsec : Int
  mLastDecodedPositionUs : Int
  mCacheFill : Int
  mLastNotifiedCacheFill : Int
  mCacheFillNotifThreshold : Int
  dataLocator : DataLocator
  mDecodeBuffer : Option Buffer
deriving DecidableEq

/-- The state established by the SfPlayer constructor. -/
def initialState : State where
  mAudioTrack := false
  playing := false
  buffering := false
  preparing := false
  seeking := false
  mBitrate := -1
  mTimeDelta := -1
  mDurationUsec := -1
  mCacheStatus := CacheStatus.empty
  mSeekTimeMsec := 0
  mLastDecodedPositionUs := -1
  mCacheFill := 0
  mLastNotifiedCacheFill := 0
  mCacheFillNotifThreshold := 100
  dataLocator := DataLocator.none
  mDecodeBuffer := none

/-- SfPlayer::getPositionUsec: under the seek lock, the pending seek
target in microseconds while seeking, otherwise the last decoded
position, or 0 when none has been recorded. -/
def getPositionUsec (s : State) : Int :=
  if s.seeking then s.mSeekTimeMsec * 1000
  else if s.mLastDecodedPositionUs < 0 then 0
  else s.mLastDecodedPositionUs

/-- SfPlayer::getPositionMsec: same selection as getPositionUsec but in
milliseconds, returned as uint32_t. -/
def getPositionMsec (s : State) : Nat :=
  if s.seeking then uint32OfInt s.mSeekTimeMsec
  else if s.mLastDecodedPositionUs < 0 then 0
  else uint32OfInt (s.mLastDecodedPositionUs / 1000)

/-- SfPlayer::onPlay: set the playing flag. -/
def onPlay (s : State) : State := { s with playing := true }

/-- SfPlayer::onPause: clear the playing flag. -/
def onPause (s : State) : State := { s with playing := false }

/-- SfPlayer::onSeek: under the seek lock, set the seeking flag, record
the target, and invalidate the time delta and the last decoded
position. -/
def onSeek (s : State) (timeMsec : Int) : State :=
  { s with seeking := true, mSeekTimeMsec := timeMsec,
           mTimeDelta := -1, mLastDecodedPositionUs := -1 }

/-- Classification of the remaining duration against the duration
thresholds, as in the known-duration branch of getCacheRemaining. -/
def statusFromUs (cfg : Config) (dataRemainingUs : Int) : CacheStatus :=
  if dataRemainingUs > cfg.durationCachedHighUs then CacheStatus.high
  else if dataRemainingUs > cfg.durationCachedMedUs then CacheStatus.enough
  else if dataRemainingUs < cfg.durationCachedLowUs then CacheStatus.low
  else CacheStatus.intermediate

/-- Classification of the remaining byte count against the size
thresholds, as in the unknown-duration branch of getCacheRemaining. -/
def statusFromBytes (cfg : Config) (dataRemaining : Nat) : CacheStatus :=
  if dataRemaining > cfg.sizeCachedHighBytes then CacheStatus.high
  else if dataRemaining > cfg.sizeCachedMedBytes then CacheStatus.enough
  else if dataRemaining < cfg.sizeCachedLowBytes then CacheStatus.low
  else CacheStatus.intermediate

/-- The new cache status and fill level computed by one invocation of
getCacheRemaining, before the notification checks.  On end of stream the
status is High and the fill 1000; with a known positive duration the
remaining bytes are converted to microseconds via the bitrate and the
fill is the permille ratio of played-plus-cached time over the duration,
cast to int16_t; otherwise the status comes from the byte thresholds and
the fill field is left at its previous value. -/
def newCacheStatusFill (cfg : Config) (s : State) (rem : Nat) (eos : Bool) :
    CacheStatus × Int :=
  if eos then (CacheStatus.high, 1000)
  else if 0 < s.mDurationUsec then
    let dataRemainingUs : Int := (rem : Int) * 8000000 / s.mBitrate
    let currentPositionUsec : Nat := uint32OfInt (getPositionUsec s)
    let fill : Int :=
      int16OfInt (1000 * ((currentPositionUsec : Int) + dataRemainingUs) / s.mDurationUsec)
    (statusFromUs cfg dataRemainingUs, fill)
  else (statusFromBytes cfg rem, s.mCacheFill)

/-- The state update and notifications of one invocation of
getCacheRemaining, assuming the bitrate assertion and the division are
well defined: update status and fill, notify the status if it changed,
and notify the fill (recording it as last notified) if its distance to
the last notified fill exceeds the threshold. -/
def cacheStepCore (cfg : Config) (s : State) (rem : Nat) (eos : Bool) :
    State × List Event × CacheStatus :=
  let sf := newCacheStatusFill cfg s rem eos
  let statusEvs : List Event :=
    if sf.1 ≠ s.mCacheStatus then [Event.notifyStatus sf.1] else []
  let fillEvs : List Event :=
    if |sf.2 - s.mLastNotifiedCacheFill| > s.mCacheFillNotifThreshold then
      [Event.notifyFill sf.2]
    else []
  let lnf : Int :=
    if |sf.2 - s.mLastNotifiedCacheFill| > s.mCacheFillNotifThreshold then sf.2
    else s.mLastNotifiedCacheFill
  ({ s with mCacheStatus := sf.1, mCacheFill := sf.2, mLastNotifiedCacheFill := lnf },
   statusEvs ++ fillEvs, sf.1)

/-- SfPlayer::getCacheRemaining.  The code first executes
CHECK_GE(mBitrate, 0), which aborts for a negative bitrate, then
unconditionally computes dataRemaining * 8000000 / mBitrate, which is
undefined for a zero bitrate; both are modelled as failures.  Otherwise
the invocation returns the updated state, the notifications fired, and
the new status. -/
def getCacheRemaining (cfg : Config) (s : State) (rem : Nat) (eos : Bool) :
    Except CacheFail (State × List Event × CacheStatus) :=
  if s.mBitrate < 0 then Except.error CacheFail.checkGeBitrate
  else if s.mBitrate = 0 then Except.error CacheFail.divByZero
  else Except.ok (cacheStepCore cfg s rem eos)

/-- SfPlayer::onCheckCache: re-run the estimator; on end of stream, High
status, or (preparing and status at least Enough), exit buffering:
restart the sink if playing, clear the buffering flag (and preparing if
set), invalidate the time delta, and post a decode if playing.
Otherwise repost the cache check after 100 ms. -/
def onCheckCache (cfg : Config) (s : State) (rem : Nat) (eos : Bool) :
    Except CacheFail (State × List Event) :=
  match getCacheRemaining cfg s rem eos with
  | Except.error e => Except.error e
  | Except.ok (s1, evs, st) =>
    if eos ∨ st = CacheStatus.high ∨
        (s1.preparing ∧ CacheStatus.enough.val ≤ st.val) then
      let evs2 : List Event := if s1.playing then [Event.sinkStart] else []
      let s2 := { s1 with buffering := false }
      let s3 := if s2.preparing then { s2 with preparing := false } else s2
      let s4 := { s3 with mTimeDelta := -1 }
      let evs3 : List Event := if s4.playing then [Event.postDecode] else []
      Except.ok (s4, evs ++ evs2 ++ evs3)
    else
      Except.ok (s1, evs ++ [Event.postCheckCache 100000])

/-- The part of SfPlayer::onDecode from the flag gate on: a no-op unless
one of playing, buffering, preparing is set; otherwise the pending
decode buffer is dropped, the source is read (with the seek target
passed while seeking), and on success the frame timestamp is recorded,
the seeking flag cleared, the time delta re-anchored if invalid, and a
render posted after the pacing delay; on end of stream a notification is
posted only if playing; on another error the handler just returns. -/
def decodeRead (s : State) (evs : List Event) (rr : ReadResult) (nowUs : Int) :
    Except CacheFail (State × List Event) :=
  if s.playing = false ∧ s.buffering = false ∧ s.preparing = false then
    Except.ok (s, evs)
  else
    let s0 := { s with mDecodeBuffer := none }
    match rr with
    | ReadResult.ok buf =>
      let s1 := { s0 with mDecodeBuffer := some buf,
                          mLastDecodedPositionUs := buf.timeUs }
      let s2 := { s1 with seeking := false }
      let s3 :=
        if s2.mTimeDelta < 0 then
          { s2 with mTimeDelta := nowUs - s2.mLastDecodedPositionUs }
        else s2
      let delayUs := s3.mLastDecodedPositionUs + s3.mTimeDelta - nowUs
      Except.ok (s3, evs ++ [Event.postRender delayUs])
    | ReadResult.endOfStream =>
      if s0.playing then Except.ok (s0, evs ++ [Event.notifyEos])
      else Except.ok (s0, evs)
    | ReadResult.readErr _ => Except.ok (s0, evs)

/-- SfPlayer::onDecode.  When the data source wants prefetching, the
estimator runs first; if it reports Low without end of stream the
handler pauses the sink (if playing), sets the buffering flag, posts a
cache check after 100 ms and returns without reading.  Otherwise the
read part decodeRead runs.  The inputs are the source answers
(wantsPrefetching, remaining bytes, end of stream), the read result, and
the current time. -/
def onDecode (cfg : Config) (s : State) (wantsPrefetching : Bool) (rem : Nat)
    (eos : Bool) (rr : ReadResult) (nowUs : Int) :
    Except CacheFail (State × List Event) :=
  if wantsPrefetching then
    match getCacheRemaining cfg s rem eos with
    | Except.error e => Except.error e
    | Except.ok (s1, evs1, st) =>
      if st = CacheStatus.low ∧ eos = false then
        let evs2 : List Event := if s1.playing then [Event.sinkPause] else []
        Except.ok ({ s1 with buffering := true },
                   evs1 ++ evs2 ++ [Event.postCheckCache 100000])
      else decodeRead s1 evs1 rr nowUs
  else decodeRead s [] rr nowUs

/-- SfPlayer::onRender: with no pending buffer, a no-op; otherwise, if
playing, write the sample range of the buffer to the sink and post the
next decode; in either case release the buffer. -/
def onRender (s : State) : State × List Event :=
  match s.mDecodeBuffer with
  | none => (s, [])
  | some buf =>
    let evs : List Event :=
      if s.playing then [Event.sinkWrite buf.rangeData, Event.postDecode] else []
    ({ s with mDecodeBuffer := none }, evs)

/-- SfPlayer::play: nothing without a bound AudioTrack; otherwise start
the sink and post a play and a decode message. -/
def play (s : State) : State × List Event :=
  if s.mAudioTrack = false then (s, [])
  else (s, [Event.sinkStart, Event.postPlay, Event.postDecode])

/-- SfPlayer::pause: nothing without a bound AudioTrack; otherwise post
a pause message and pause the sink. -/
def pause (s : State) : State × List Event :=
  if s.mAudioTrack = false then (s, [])
  else (s, [Event.postPause, Event.sinkPause])

/-- SfPlayer::seek: post a seek message carrying the target. -/
def seek (s : State) (timeMsec : Int) : State × List Event :=
  (s, [Event.postSeek timeMsec])

/-- SfPlayer::stop: nothing without a bound AudioTrack; otherwise call
stop on the sink, post a pause message, then seek to 0, which posts a
seek message with target 0. -/
def stop (s : State) : State × List Event :=
  if s.mAudioTrack = false then (s, [])
  else (s, [Event.sinkStop, Event.postPause, Event.postSeek 0])

/-- SfPlayer::resetDataLocator: free a held URI string and return the
locator to None. -/
def resetDataLocator (s : State) : State :=
  { s with dataLocator := DataLocator.none }

/-- SfPlayer::setDataSource for a URI: first reset the data locator,
then allocate a copy of the URI string; on allocation failure (the
allocOk input false) log and return, otherwise adopt the copy as the
URI locator. -/
def setDataSourceUri (s : State) (uri : String) (allocOk : Bool) : State :=
  let s1 := resetDataLocator s
  if allocOk then { s1 with dataLocator := DataLocator.uri uri }
  else s1

/-- A sequence of estimator invocations: fold getCacheRemaining over a
list of (remaining bytes, end of stream) inputs, keeping the state. -/
def runChecks (cfg : Config) : State → List (Nat × Bool) → Except CacheFail State
  | s, [] => Except.ok s
  | s, p :: rest =>
    match getCacheRemaining cfg s p.1 p.2 with
    | Except.error e => Except.error e
    | Except.ok (s1, _, _) => runChecks cfg s1 rest

/-- A state as left by a prepare that found a 30 s duration and derived
a 128000 bps bitrate (the scenario of the spec), used for witnesses. -/
def exKnownDuration : State :=
  { initialState with mBitrate := 128000, mDurationUsec := 30000000 }

/-- A state with a bound AudioTrack sink, used for witnesses. -/
def exSinkState : State := { initialState with mAudioTrack := true }

/-- A state holding a URI data locator, used for witnesses. -/
def exUriState : State := { initialState with dataLocator := DataLocator.uri "old" }

/-- A decoded buffer used for witnesses. -/
def exBuffer : Buffer := { timeUs := 5000000, rangeData := [1, 2, 3] }

/-- A playing state with a pending decoded buffer, used for witnesses. -/
def exRenderState : State :=
  { initialState with playing := true, mDecodeBuffer := some exBuffer }

end SfPlayer

deriving instance DecidableEq for Except

namespace SfPlayer

/-! Helper lemmas about the cache estimator step. -/

theorem getCacheRemaining_of_pos (cfg : Config) (s : State) (rem : Nat) (eos : Bool)
    (h : 0 < s.mBitrate) :
    getCacheRemaining cfg s rem eos = Except.ok (cacheStepCore cfg s rem eos) := by
  unfold getCacheRemaining
  rw [if_neg (by omega), if_neg (by omega)]

theorem cacheStepCore_mBitrate (cfg : Config) (s : State) (rem : Nat) (eos : Bool) :
    ((cacheStepCore cfg s rem eos).1).mBitrate = s.mBitrate := rfl

theorem cacheStepCore_seeking (cfg : Config) (s : State) (rem : Nat) (eos : Bool) :
    ((cacheStepCore cfg s rem eos).1).seeking = s.seeking := rfl

theorem cacheStepCore_eos (cfg : Config) (s : State) (rem : Nat) :
    ((cacheStepCore cfg s rem true).1).mCacheFill = 1000 ∧
    ((cacheStepCore cfg s rem true).1).mCacheStatus = CacheStatus.high := by
  constructor <;> simp [cacheStepCore, newCacheStatusFill]

/-- C5: with duration and bitrate unknown (both -1) and end of stream
not reached, the claim expects the estimator to complete and classify by
byte thresholds; the code instead executes CHECK_GE(mBitrate, 0)
unconditionally, which fails for the unknown bitrate -1 and aborts
before ever reaching the byte-threshold branch.  Evaluated at the
failing input: the constructor state (mBitrate = -1, mDurationUsec = -1)
with 500000 bytes remaining and no end of stream. -/
theorem C5_unknown_bitrate_assertion :
    initialState.mBitrate = -1 ∧ initialState.mDurationUsec = -1 ∧
    getCacheRemaining exampleConfig initialState 500000 false =
      Except.error CacheFail.checkGeBitrate := by
  refine ⟨rfl, rfl, ?_⟩
  rfl

/-- C9 counterexample: with a URI locator held, a setDataSource whose
URI-copy allocation fails does not leave the prior locator state
unchanged: the locator was already reset to None before the allocation
was attempted. -/
theorem C9_counterexample :
    (setDataSourceUri exUriState "new" false).dataLocator ≠ exUriState.dataLocator := by
  decide

/-- C9 amended: if setDataSource fails to allocate the copy of the URI
string, the operation aborts with the data locator in the reset state
None (the prior locator has already been released), all other state
unchanged; the prior locator state is preserved only when it was already
None. -/
theorem C9_alloc_fail_state (s : State) (uri : String) :
    setDataSourceUri s uri false = { s with dataLocator := DataLocator.none } := rfl

/-- C10: with no AudioTrack sink bound, pause and stop return before
doing anything: the state is unchanged, no sink call is made, no message
is posted, and in particular stop does not seek to 0, so the playback
position is unchanged. -/
theorem C10_unbound_sink_noop (s : State) (h : s.mAudioTrack = false) :
    stop s = (s, []) ∧ pause s = (s, []) ∧
    getPositionMsec (stop s).1 = getPositionMsec s := by
  simp [stop, pause, h]

theorem C10_witness :
    stop initialState = (initialState, []) ∧
    pause initialState = (initialState, []) ∧
    getPositionMsec (stop initialState).1 = getPositionMsec initialState :=
  C10_unbound_sink_noop initialState rfl

/-- C7: a render step with no pending buffer is a no-op; with a pending
buffer and the playing flag set it writes the sample range of the buffer
to the sink and posts exactly one decode message; with a pending buffer
and the playing flag clear it writes nothing and posts nothing; in both
non-empty cases the buffer is released, and after every render step the
pending-buffer slot is empty. -/
theorem C7_render_step (s : State) :
    (s.mDecodeBuffer = none → onRender s = (s, [])) ∧
    (∀ buf, s.mDecodeBuffer = some buf → s.playing = true →
      onRender s = ({ s with mDecodeBuffer := none },
        [Event.sinkWrite buf.rangeData, Event.postDecode])) ∧
    (∀ buf, s.mDecodeBuffer = some buf → s.playing = false →
      onRender s = ({ s with mDecodeBuffer := none }, [])) ∧
    ((onRender s).1).mDecodeBuffer = none := by
  refine ⟨?_, ?_, ?_, ?_⟩
  · intro h
    simp [onRender, h]
  · intro buf hb hp
    simp [onRender, hb, hp]
  · intro buf hb hp
    simp [onRender, hb, hp]
  · match h : s.mDecodeBuffer with
    | none => simp [onRender, h]
    | some buf => simp [onRender, h]

theorem C7_witness :
    onRender exRenderState = ({ exRenderState with mDecodeBuffer := none },
      [Event.sinkWrite exBuffer.rangeData, Event.postDecode]) ∧
    ((onRender exRenderState).1).mDecodeBuffer = none :=
  ⟨(C7_render_step exRenderState).2.1 exBuffer rfl rfl,
   (C7_render_step exRenderState).2.2.2⟩

/-- C8 counterexample: stop with a sink bound does not pause the sink;
it calls the stop entry point of the AudioTrack. -/
theorem C8_counterexample :
    Event.sinkPause ∉ (stop exSinkState).2 ∧
    Event.sinkStop ∈ (stop exSinkState).2 := by
  decide

/-- C8 amended: for every call to stop with a sink bound, the stop entry
point of the sink is invoked (not pause), the state is untouched
directly, and a pause message and a seek message with target 0 are
posted; after the posted handlers run, the playing flag is clear, the
seeking flag is set, and getPositionMsec returns 0 until the next
successful decode. -/
theorem C8_stop_behavior (s : State) (h : s.mAudioTrack = true) :
    (stop s).1 = s ∧
    (stop s).2 = [Event.sinkStop, Event.postPause, Event.postSeek 0] ∧
    (onSeek (onPause s) 0).playing = false ∧
    (onSeek (onPause s) 0).seeking = true ∧
    getPositionMsec (onSeek (onPause s) 0) = 0 := by
  refine ⟨?_, ?_, rfl, rfl, rfl⟩ <;> simp [stop, h]

theorem C8_witness :
    (stop exSinkState).1 = exSinkState ∧
    (stop exSinkState).2 = [Event.sinkStop, Event.postPause, Event.postSeek 0] ∧
    (onSeek (onPause exSinkState) 0).playing = false ∧
    (onSeek (onPause exSinkState) 0).seeking = true ∧
    getPositionMsec (onSeek (onPause exSinkState) 0) = 0 :=
  C8_stop_behavior exSinkState rfl

/-- C6 counterexample: with none of the playing, buffering, preparing
flags set but a source that wants prefetching and a cache estimate of
Low without end of stream, the decode step is not a no-op: it fires a
status notification, sets the buffering flag, and posts a cache-check
message. -/
theorem C6_counterexample :
    exKnownDuration.buffering = false ∧
    onDecode exampleConfig exKnownDuration true 4000 false (ReadResult.readErr 0) 0 =
      Except.ok ({ exKnownDuration with
          buffering := true,
          mCacheStatus := CacheStatus.low,
          mCacheFill := 8 },
        [Event.notifyStatus CacheStatus.low, Event.postCheckCache 100000]) := by
  refine ⟨rfl, ?_⟩
  rfl

/-- C6 amended: with none of the playing, buffering, preparing flags set
and a source that does not want prefetching, the decode step is a
complete no-op: state unchanged, no sink call, no notification, no
message posted.  (When the source wants prefetching the step first runs
the cache estimator, which can notify, set the buffering flag, and post
a cache check, as the counterexample shows.) -/
theorem C6_decode_noop (cfg : Config) (s : State) (rem : Nat) (eos : Bool)
    (rr : ReadResult) (nowUs : Int)
    (h : s.playing = false ∧ s.buffering = false ∧ s.preparing = false) :
    onDecode cfg s false rem eos rr nowUs = Except.ok (s, []) := by
  simp [onDecode, decodeRead, h.1, h.2.1, h.2.2]

theorem C6_witness :
    onDecode exampleConfig initialState false 4000 false (ReadResult.readErr 0) 0 =
      Except.ok (initialState, []) :=
  C6_decode_noop exampleConfig initialState 4000 false (ReadResult.readErr 0) 0
    ⟨rfl, rfl, rfl⟩

/-! Helper lemmas for the seek invariant. -/

theorem uint32OfInt_small (x : Int) (h1 : 0 ≤ x) (h2 : x < 4294967296) :
    uint32OfInt x = x.toNat := by
  unfold uint32OfInt
  rw [Int.emod_eq_of_lt h1 h2]

theorem getCacheRemaining_ok (cfg : Config) (s : State) (rem : Nat) (eos : Bool)
    (t : State × List Event × CacheStatus)
    (h : getCacheRemaining cfg s rem eos = Except.ok t) :
    t = cacheStepCore cfg s rem eos ∧ 0 < s.mBitrate := by
  unfold getCacheRemaining at h
  split at h
  · cases h
  · split at h
    · cases h
    · refine ⟨?_, by omega⟩
      simpa using h.symm

theorem decodeRead_seeking (s : State) (evs : List Event) (rr : ReadResult)
    (nowUs : Int) (s1 : State) (evs1 : List Event)
    (h : decodeRead s evs rr nowUs = Except.ok (s1, evs1)) :
    s1.seeking = s.seeking ∨ (s1.seeking = false ∧ ∃ b, rr = ReadResult.ok b) := by
  unfold decodeRead at h
  split at h
  · left
    simp only [Except.ok.injEq, Prod.mk.injEq] at h
    rw [← h.1]
  · cases rr with
    | ok buf =>
      right
      simp only at h
      split at h <;>
        simp only [Except.ok.injEq, Prod.mk.injEq] at h <;>
        exact ⟨by rw [← h.1], buf, rfl⟩
    | endOfStream =>
      left
      simp only at h
      split at h <;>
        simp only [Except.ok.injEq, Prod.mk.injEq] at h <;>
        rw [← h.1]
    | readErr code =>
      left
      simp only at h
      simp only [Except.ok.injEq, Prod.mk.injEq] at h
      rw [← h.1]

/-- C1 amended: immediately after the seek handler applies seek(T) the
seeking flag is set, and getPositionMsec returns T provided T fits the
uint32 return type (0 ≤ T < 2^32; beyond that the value is truncated
modulo 2^32, as the counterexample shows).  The seeking flag is
preserved by onPlay, onPause, onRender and onCheckCache, and a decode
step changes it only by clearing it when the read succeeds (never on an
end-of-stream or error result).  A decode step allowed by its flag gate
whose read succeeds with a frame of non-negative timestamp ts clears the
seeking flag, records ts, and getPositionMsec then returns ts / 1000
(when that fits uint32).  When the seeking flag is clear and no frame
has been decoded since the last reset, getPositionMsec returns 0. -/
theorem C1_seek_position (cfg : Config) (s : State) :
    (∀ T : Int, (onSeek s T).seeking = true) ∧
    (∀ T : Int, 0 ≤ T → T < 4294967296 →
      getPositionMsec (onSeek s T) = T.toNat) ∧
    ((onPlay s).seeking = s.seeking ∧ (onPause s).seeking = s.seeking ∧
      ((onRender s).1).seeking = s.seeking) ∧
    (∀ rem eos s1 evs, onCheckCache cfg s rem eos = Except.ok (s1, evs) →
      s1.seeking = s.seeking) ∧
    (∀ wp rem eos rr nowUs s1 evs,
      onDecode cfg s wp rem eos rr nowUs = Except.ok (s1, evs) →
      s1.seeking = s.seeking ∨ (s1.seeking = false ∧ ∃ b, rr = ReadResult.ok b)) ∧
    (∀ rem eos buf nowUs,
      ¬(s.playing = false ∧ s.buffering = false ∧ s.preparing = false) →
      0 ≤ buf.timeUs →
      ∀ s1 evs,
        onDecode cfg s false rem eos (ReadResult.ok buf) nowUs = Except.ok (s1, evs) →
        s1.seeking = false ∧ s1.mLastDecodedPositionUs = buf.timeUs ∧
        (buf.timeUs < 4294967296000 →
          getPositionMsec s1 = (buf.timeUs / 1000).toNat)) ∧
    (s.seeking = false → s.mLastDecodedPositionUs < 0 → getPositionMsec s = 0) := by
  refine ⟨fun T => rfl, ?_, ⟨rfl, rfl, ?_⟩, ?_, ?_, ?_, ?_⟩
  · intro T h1 h2
    show uint32OfInt T = T.toNat
    exact uint32OfInt_small T h1 h2
  · cases hb : s.mDecodeBuffer <;> simp [onRender, hb]
  · intro rem eos s1 evs h
    unfold onCheckCache at h
    cases hg : getCacheRemaining cfg s rem eos with
    | error e => rw [hg] at h; cases h
    | ok t =>
      obtain ⟨ht, _⟩ := getCacheRemaining_ok cfg s rem eos t hg
      rw [hg] at h
      obtain ⟨sc, evsc, stc⟩ := t
      simp only at h
      have hsc : sc.seeking = s.seeking := by
        have h2 : sc = (cacheStepCore cfg s rem eos).1 := congrArg Prod.fst ht
        rw [h2, cacheStepCore_seeking]
      split at h
      · simp only [Except.ok.injEq, Prod.mk.injEq] at h
        rw [← h.1]
        split <;> exact hsc
      · simp only [Except.ok.injEq, Prod.mk.injEq] at h
        rw [← h.1]
        exact hsc
  · intro wp rem eos rr nowUs s1 evs h
    unfold onDecode at h
    cases wp with
    | false =>
      simp only [Bool.false_eq_true, if_false] at h
      exact decodeRead_seeking s [] rr nowUs s1 evs h
    | true =>
      simp only [if_true] at h
      cases hg : getCacheRemaining cfg s rem eos with
      | error e => rw [hg] at h; cases h
      | ok t =>
        obtain ⟨ht, _⟩ := getCacheRemaining_ok cfg s rem eos t hg
        rw [hg] at h
        obtain ⟨sc, evsc, stc⟩ := t
        simp only at h
        have hsc : sc.seeking = s.seeking := by
          have h2 : sc = (cacheStepCore cfg s rem eos).1 := congrArg Prod.fst ht
          rw [h2, cacheStepCore_seeking]
        split at h
        · left
          simp only [Except.ok.injEq, Prod.mk.injEq] at h
          rw [← h.1]
          exact hsc
        · rcases decodeRead_seeking sc evsc rr nowUs s1 evs h with h1 | h2
          · left; rw [h1, hsc]
          · right; exact h2
  · intro rem eos buf nowUs hgate htime s1 evs h
    have hmsec : ∀ s2 : State, s2.seeking = false →
        s2.mLastDecodedPositionUs = buf.timeUs →
        buf.timeUs < 4294967296000 → getPositionMsec s2 = (buf.timeUs / 1000).toNat := by
      intro s2 hs hl hfit
      unfold getPositionMsec
      rw [hs, if_neg (by simp), hl, if_neg (not_lt.mpr htime)]
      refine uint32OfInt_small _ (Int.ediv_nonneg htime (by norm_num)) ?_
      rw [Int.ediv_lt_iff_lt_mul (by norm_num)]
      omega
    unfold onDecode at h
    simp only [Bool.false_eq_true, if_false] at h
    unfold decodeRead at h
    rw [if_neg hgate] at h
    simp only at h
    split at h <;>
      simp only [Except.ok.injEq, Prod.mk.injEq] at h <;>
      rw [← h.1] <;>
      exact ⟨rfl, rfl, hmsec _ rfl rfl⟩
  · intro h1 h2
    simp [getPositionMsec, h1, h2]

/-- C1 counterexample: getPositionMsec returns a uint32, so immediately
after the seek handler applies seek(4294967296) (2 to the 32), the
seeking flag is set but getPositionMsec returns 0, not the target. -/
theorem C1_counterexample :
    (onSeek initialState 4294967296).seeking = true ∧
    getPositionMsec (onSeek initialState 4294967296) = 0 ∧
    (4294967296 : Nat) ≠ 0 := by
  refine ⟨rfl, by rfl, by decide⟩

/-- The state produced by the concrete successful decode used in the C1
witness. -/
def exDecodeResult : State :=
  { exRenderState with
      mDecodeBuffer := some exBuffer,
      mLastDecodedPositionUs := 5000000,
      seeking := false,
      mTimeDelta := -5000000 }

/-- C1 witness: the amended theorem instantiated at concrete inputs. -/
theorem C1_witness :
    getPositionMsec (onSeek initialState 5) = (5 : Int).toNat ∧
    (onSeek initialState 5).seeking = true ∧
    getPositionMsec initialState = 0 ∧
    exDecodeResult.seeking = false ∧
    exDecodeResult.mLastDecodedPositionUs = exBuffer.timeUs ∧
    getPositionMsec exDecodeResult = (exBuffer.timeUs / 1000).toNat := by
  have hc := C1_seek_position exampleConfig initialState
  have hd := (C1_seek_position exampleConfig exRenderState).2.2.2.2.2.1 4000 false
    exBuffer 0 (by decide) (by decide) exDecodeResult [Event.postRender 0] (by rfl)
  exact ⟨hc.2.1 5 (by norm_num) (by norm_num), hc.1 5,
    hc.2.2.2.2.2.2 rfl (by decide), hd.1, hd.2.1, hd.2.2 (by decide)⟩

theorem cacheStepCore_eq (cfg : Config) (s : State) (rem : Nat) (eos : Bool) :
    cacheStepCore cfg s rem eos =
      ({ s with
          mCacheStatus := (newCacheStatusFill cfg s rem eos).1,
          mCacheFill := (newCacheStatusFill cfg s rem eos).2,
          mLastNotifiedCacheFill :=
            if |(newCacheStatusFill cfg s rem eos).2 - s.mLastNotifiedCacheFill| >
                s.mCacheFillNotifThreshold
            then (newCacheStatusFill cfg s rem eos).2
            else s.mLastNotifiedCacheFill },
       (if (newCacheStatusFill cfg s rem eos).1 ≠ s.mCacheStatus
        then [Event.notifyStatus (newCacheStatusFill cfg s rem eos).1] else []) ++
       (if |(newCacheStatusFill cfg s rem eos).2 - s.mLastNotifiedCacheFill| >
            s.mCacheFillNotifThreshold
        then [Event.notifyFill (newCacheStatusFill cfg s rem eos).2] else []),
       (newCacheStatusFill cfg s rem eos).1) := rfl

theorem cacheStepCore_mDurationUsec (cfg : Config) (s : State) (rem : Nat) (eos : Bool) :
    ((cacheStepCore cfg s rem eos).1).mDurationUsec = s.mDurationUsec := rfl

theorem cacheStepCore_getPositionUsec (cfg : Config) (s : State) (rem : Nat) (eos : Bool) :
    getPositionUsec ((cacheStepCore cfg s rem eos).1) = getPositionUsec s := rfl

theorem newCacheStatusFill_step (cfg : Config) (s : State) (rem : Nat) (eos : Bool) :
    newCacheStatusFill cfg ((cacheStepCore cfg s rem eos).1) rem eos =
      newCacheStatusFill cfg s rem eos := by
  cases eos with
  | true => rfl
  | false =>
    by_cases hd : 0 < s.mDurationUsec
    · unfold newCacheStatusFill
      simp only [Bool.false_eq_true, if_false, cacheStepCore_mDurationUsec,
        cacheStepCore_getPositionUsec, cacheStepCore_mBitrate, if_pos hd]
    · unfold newCacheStatusFill
      simp only [Bool.false_eq_true, if_false, cacheStepCore_mDurationUsec, if_neg hd]
      have : ((cacheStepCore cfg s rem false).1).mCacheFill =
          (newCacheStatusFill cfg s rem false).2 := rfl
      rw [this]
      simp [newCacheStatusFill, hd]

/-- C3: on every invocation of the cache estimator, a status
notification fires if and only if the newly computed status differs from
the status of the previous invocation (so a second invocation with
unchanged inputs never re-notifies status); independently, a fill-level
notification fires if and only if the distance of the new fill to the
last notified fill exceeds the threshold, after which the last notified
fill equals the new fill (otherwise it is unchanged); both notifications
may fire in the same invocation, as the witness exhibits. -/
theorem C3_notification_policy (cfg : Config) (s : State) (rem : Nat) (eos : Bool)
    (s1 : State) (evs : List Event) (st : CacheStatus)
    (h : getCacheRemaining cfg s rem eos = Except.ok (s1, evs, st)) :
    ((∃ c, Event.notifyStatus c ∈ evs) ↔ s1.mCacheStatus ≠ s.mCacheStatus) ∧
    ((∃ f, Event.notifyFill f ∈ evs) ↔
      |s1.mCacheFill - s.mLastNotifiedCacheFill| > s.mCacheFillNotifThreshold) ∧
    ((∃ f, Event.notifyFill f ∈ evs) → s1.mLastNotifiedCacheFill = s1.mCacheFill) ∧
    (¬(∃ f, Event.notifyFill f ∈ evs) →
      s1.mLastNotifiedCacheFill = s.mLastNotifiedCacheFill) ∧
    (∀ s2 evs2 st2, getCacheRemaining cfg s1 rem eos = Except.ok (s2, evs2, st2) →
      ∀ c, Event.notifyStatus c ∉ evs2) := by
  obtain ⟨ht, hb⟩ := getCacheRemaining_ok cfg s rem eos (s1, evs, st) h
  rw [cacheStepCore_eq] at ht
  simp only [Prod.mk.injEq] at ht
  obtain ⟨hs1, hevs, hst⟩ := ht
  have hsecond : ∀ s2 evs2 st2,
      getCacheRemaining cfg s1 rem eos = Except.ok (s2, evs2, st2) →
      ∀ c, Event.notifyStatus c ∉ evs2 := by
    intro s2 evs2 st2 h2 c
    obtain ⟨ht2, _⟩ := getCacheRemaining_ok cfg s1 rem eos (s2, evs2, st2) h2
    rw [cacheStepCore_eq] at ht2
    simp only [Prod.mk.injEq] at ht2
    have hnf2 : newCacheStatusFill cfg s1 rem eos = newCacheStatusFill cfg s rem eos := by
      rw [hs1]
      have hstep := newCacheStatusFill_step cfg s rem eos
      rw [cacheStepCore_eq] at hstep
      exact hstep
    have hstat1 : s1.mCacheStatus = (newCacheStatusFill cfg s rem eos).1 := by
      rw [hs1]
    rcases ht2 with ⟨-, hevs2, -⟩
    subst hevs2
    rw [hnf2, hstat1]
    simp
  refine ⟨?_, ?_, ?_, ?_, hsecond⟩ <;>
  · subst hs1 hevs
    by_cases hstch : (newCacheStatusFill cfg s rem eos).1 = s.mCacheStatus <;>
      by_cases hfire : |(newCacheStatusFill cfg s rem eos).2 - s.mLastNotifiedCacheFill| >
        s.mCacheFillNotifThreshold <;>
      simp [hstch, hfire]

/-- The state produced by the concrete estimator invocation of the C3
and C4 witnesses (Scenario A of the spec). -/
def exC3Result : State :=
  { exKnownDuration with
      mCacheStatus := CacheStatus.high,
      mCacheFill := 4166,
      mLastNotifiedCacheFill := 4166 }

/-- The notifications fired by that invocation: both fire at once. -/
def exC3Evs : List Event :=
  [Event.notifyStatus CacheStatus.high, Event.notifyFill 4166]

/-- C3 witness: the theorem instantiated on Scenario A, where both the
status notification and the fill notification fire in one call. -/
theorem C3_witness :
    ((∃ c, Event.notifyStatus c ∈ exC3Evs) ↔
      exC3Result.mCacheStatus ≠ exKnownDuration.mCacheStatus) ∧
    ((∃ f, Event.notifyFill f ∈ exC3Evs) ↔
      |exC3Result.mCacheFill - exKnownDuration.mLastNotifiedCacheFill| >
        exKnownDuration.mCacheFillNotifThreshold) ∧
    ((∃ f, Event.notifyFill f ∈ exC3Evs) →
      exC3Result.mLastNotifiedCacheFill = exC3Result.mCacheFill) ∧
    (¬(∃ f, Event.notifyFill f ∈ exC3Evs) →
      exC3Result.mLastNotifiedCacheFill = exKnownDuration.mLastNotifiedCacheFill) ∧
    (∀ s2 evs2 st2,
      getCacheRemaining exampleConfig exC3Result 2000000 false =
        Except.ok (s2, evs2, st2) →
      ∀ c, Event.notifyStatus c ∉ evs2) :=
  C3_notification_policy exampleConfig exKnownDuration 2000000 false
    exC3Result exC3Evs CacheStatus.high (by rfl)

theorem int16OfInt_eq_self (x : Int) (h1 : -32768 ≤ x) (h2 : x ≤ 32767) :
    int16OfInt x = x := by
  unfold int16OfInt
  rw [Int.emod_eq_of_lt (by omega) (by omega)]
  omega

/-- C4 counterexample: Scenario A of the spec itself (duration
30000000 us, bitrate 128000 bps, 2000000 bytes remaining, no end of
stream, position 0) yields cacheFillPermille 4166, outside 0..1000: the
code never clamps the ratio of played-plus-cached time to duration. -/
theorem C4_counterexample :
    getCacheRemaining exampleConfig exKnownDuration 2000000 false =
      Except.ok (exC3Result, exC3Evs, CacheStatus.high) ∧
    exC3Result.mCacheFill = 4166 ∧ ¬(exC3Result.mCacheFill ≤ 1000) := by
  refine ⟨by rfl, rfl, by decide⟩

/-- C4 amended: the resulting cacheFillPermille lies in 0..1000
provided the fill before the invocation does (the unknown-duration
branch leaves it unchanged) and, when the duration is known and end of
stream is not reached, the played-plus-cached time does not exceed the
duration; without that bound the fill can exceed 1000, as the
counterexample shows. -/
theorem C4_fill_range (cfg : Config) (s : State) (rem : Nat) (eos : Bool)
    (hfill0 : 0 ≤ s.mCacheFill) (hfill1 : s.mCacheFill ≤ 1000)
    (hbound : 0 < s.mDurationUsec → eos = false →
      (uint32OfInt (getPositionUsec s) : Int) + (rem : Int) * 8000000 / s.mBitrate ≤
        s.mDurationUsec)
    (s1 : State) (evs : List Event) (st : CacheStatus)
    (h : getCacheRemaining cfg s rem eos = Except.ok (s1, evs, st)) :
    0 ≤ s1.mCacheFill ∧ s1.mCacheFill ≤ 1000 := by
  obtain ⟨ht, hb⟩ := getCacheRemaining_ok cfg s rem eos (s1, evs, st) h
  rw [cacheStepCore_eq] at ht
  simp only [Prod.mk.injEq] at ht
  obtain ⟨hs1, -, -⟩ := ht
  have hgoal : s1.mCacheFill = (newCacheStatusFill cfg s rem eos).2 := by
    rw [hs1]
  rw [hgoal]
  unfold newCacheStatusFill
  cases eos with
  | true => simp
  | false =>
    simp only [Bool.false_eq_true, if_false]
    by_cases hd : 0 < s.mDurationUsec
    · rw [if_pos hd]
      simp only
      have hpos0 : (0 : Int) ≤ (uint32OfInt (getPositionUsec s) : Int) :=
        Int.ofNat_nonneg _
      have hrem0 : (0 : Int) ≤ (rem : Int) * 8000000 / s.mBitrate :=
        Int.ediv_nonneg (by positivity) (le_of_lt hb)
      have hle : (uint32OfInt (getPositionUsec s) : Int) +
          (rem : Int) * 8000000 / s.mBitrate ≤ s.mDurationUsec := hbound hd rfl
      have hq0 : 0 ≤ 1000 * ((uint32OfInt (getPositionUsec s) : Int) +
          (rem : Int) * 8000000 / s.mBitrate) / s.mDurationUsec :=
        Int.ediv_nonneg (by omega) (by omega)
      have hq1 : 1000 * ((uint32OfInt (getPositionUsec s) : Int) +
          (rem : Int) * 8000000 / s.mBitrate) / s.mDurationUsec ≤ 1000 := by
        calc 1000 * ((uint32OfInt (getPositionUsec s) : Int) +
              (rem : Int) * 8000000 / s.mBitrate) / s.mDurationUsec
            ≤ 1000 * s.mDurationUsec / s.mDurationUsec :=
              Int.ediv_le_ediv hd (by omega)
          _ = 1000 := Int.mul_ediv_cancel 1000 (by omega)
      rw [int16OfInt_eq_self _ (by omega) (by omega)]
      exact ⟨hq0, hq1⟩
    · rw [if_neg hd]
      exact ⟨hfill0, hfill1⟩

/-- The state produced by the concrete estimator invocation of the C4
witness (Scenario B: 4000 bytes remaining). -/
def exC4Result : State :=
  { exKnownDuration with mCacheStatus := CacheStatus.low, mCacheFill := 8 }

/-- C4 witness: the amended theorem instantiated on Scenario B. -/
theorem C4_witness :
    0 ≤ exC4Result.mCacheFill ∧ exC4Result.mCacheFill ≤ 1000 :=
  C4_fill_range exampleConfig exKnownDuration 4000 false (by decide) (by decide)
    (by decide) exC4Result [Event.notifyStatus CacheStatus.low] CacheStatus.low
    (by rfl)

theorem runChecks_cons_eq (cfg : Config) (s : State) (p : Nat × Bool)
    (rest : List (Nat × Bool)) :
    runChecks cfg s (p :: rest) =
      match getCacheRemaining cfg s p.1 p.2 with
      | Except.error e => Except.error e
      | Except.ok (s1, _, _) => runChecks cfg s1 rest := rfl

theorem runChecks_cons (cfg : Config) (s : State) (p : Nat × Bool)
    (rest : List (Nat × Bool)) (h : 0 < s.mBitrate) :
    runChecks cfg s (p :: rest) =
      runChecks cfg ((cacheStepCore cfg s p.1 p.2).1) rest := by
  rw [runChecks_cons_eq, getCacheRemaining_of_pos cfg s p.1 p.2 h]

theorem runChecks_total (cfg : Config) (l : List (Nat × Bool)) :
    ∀ s : State, 0 < s.mBitrate →
    ∃ s1, runChecks cfg s l = Except.ok s1 ∧ s1.mBitrate = s.mBitrate := by
  induction l with
  | nil => exact fun s _ => ⟨s, rfl, rfl⟩
  | cons p rest ih =>
    intro s h
    rw [runChecks_cons cfg s p rest h]
    obtain ⟨s1, h1, h2⟩ := ih ((cacheStepCore cfg s p.1 p.2).1)
      (by rw [cacheStepCore_mBitrate]; exact h)
    exact ⟨s1, h1, by rw [h2, cacheStepCore_mBitrate]⟩

theorem runChecks_allEos (cfg : Config) (l : List (Nat × Bool)) :
    ∀ s : State, 0 < s.mBitrate → (∀ p ∈ l, p.2 = true) → l ≠ [] →
    ∃ s1, runChecks cfg s l = Except.ok s1 ∧
      s1.mCacheFill = 1000 ∧ s1.mCacheStatus = CacheStatus.high := by
  induction l with
  | nil => exact fun s _ _ hne => absurd rfl hne
  | cons p rest ih =>
    intro s h hall _
    have hp : p.2 = true := hall p (List.mem_cons_self p rest)
    rw [runChecks_cons cfg s p rest h]
    rcases Decidable.em (rest = []) with hr | hr
    · subst hr
      refine ⟨(cacheStepCore cfg s p.1 p.2).1, rfl, ?_⟩
      rw [hp]
      exact cacheStepCore_eos cfg s p.1
    · exact ih ((cacheStepCore cfg s p.1 p.2).1)
        (by rw [cacheStepCore_mBitrate]; exact h)
        (fun q hq => hall q (List.mem_cons_of_mem p hq)) hr

theorem runChecks_append (cfg : Config) (l1 l2 : List (Nat × Bool)) :
    ∀ s s1 : State, runChecks cfg s l1 = Except.ok s1 →
    runChecks cfg s (l1 ++ l2) = runChecks cfg s1 l2 := by
  induction l1 with
  | nil =>
    intro s s1 h
    simp only [runChecks, Except.ok.injEq] at h
    subst h
    rfl
  | cons p rest ih =>
    intro s s1 h
    rw [runChecks_cons_eq] at h
    show runChecks cfg s (p :: (rest ++ l2)) = runChecks cfg s1 l2
    rw [runChecks_cons_eq]
    cases hg : getCacheRemaining cfg s p.1 p.2 with
    | error e => rw [hg] at h; cases h
    | ok t =>
      obtain ⟨sc, evsc, stc⟩ := t
      rw [hg] at h
      simp only at h ⊢
      exact ih sc s1 h

/-- C2: for every sequence of cache-check invocations of a player
whose bitrate passed the prepare computation (positive, so the estimator
completes), once an invocation observes end of stream - end of stream
being a property of the exhausted source, it holds at every later
invocation as well - the fill is exactly 1000 and the status High at
that invocation and every later one, and the fill is non-decreasing
across those invocations. -/
theorem C2_eos_cache_monotone (cfg : Config) (s0 : State) (h : 0 < s0.mBitrate)
    (inputs : List (Nat × Bool)) (i : Nat)
    (heos : ∀ j (hj : j < inputs.length), i ≤ j → (inputs.get ⟨j, hj⟩).2 = true) :
    (∀ n, i < n → n ≤ inputs.length →
      ∃ s1, runChecks cfg s0 (inputs.take n) = Except.ok s1 ∧
        s1.mCacheFill = 1000 ∧ s1.mCacheStatus = CacheStatus.high) ∧
    (∀ m n sm sn, i < m → m ≤ n → n ≤ inputs.length →
      runChecks cfg s0 (inputs.take m) = Except.ok sm →
      runChecks cfg s0 (inputs.take n) = Except.ok sn →
      sm.mCacheFill ≤ sn.mCacheFill) := by
  have main : ∀ n, i < n → n ≤ inputs.length →
      ∃ s1, runChecks cfg s0 (inputs.take n) = Except.ok s1 ∧
        s1.mCacheFill = 1000 ∧ s1.mCacheStatus = CacheStatus.high := by
    intro n hin hn
    have hdecomp : inputs.take n = inputs.take i ++ (inputs.drop i).take (n - i) := by
      rw [← List.take_add]
      congr 1
      omega
    obtain ⟨s1, h1, hb1⟩ := runChecks_total cfg (inputs.take i) s0 h
    have hall : ∀ p ∈ (inputs.drop i).take (n - i), p.2 = true := by
      intro p hp
      have hp2 := List.take_subset _ _ hp
      rw [List.mem_iff_get] at hp2
      obtain ⟨⟨k, hk⟩, hget⟩ := hp2
      have hik : i + k < inputs.length := by
        have := hk
        rw [List.length_drop] at this
        omega
      have hgd : (inputs.drop i).get ⟨k, hk⟩ = inputs.get ⟨i + k, hik⟩ := by
        simp [List.get_drop]
      rw [hgd] at hget
      rw [← hget]
      exact heos (i + k) hik (by omega)
    have hne : (inputs.drop i).take (n - i) ≠ [] := by
      have hlen : ((inputs.drop i).take (n - i)).length = min (n - i) (inputs.length - i) := by
        rw [List.length_take, List.length_drop]
      intro hcon
      rw [hcon] at hlen
      simp only [List.length_nil] at hlen
      omega
    obtain ⟨s2, h2, hf, hs⟩ := runChecks_allEos cfg ((inputs.drop i).take (n - i)) s1
      (by rw [hb1]; exact h) hall hne
    refine ⟨s2, ?_, hf, hs⟩
    rw [hdecomp, runChecks_append cfg _ _ s0 s1 h1]
    exact h2
  refine ⟨main, ?_⟩
  intro m n sm sn him hmn hn hrm hrn
  obtain ⟨sm', hm', hfm, -⟩ := main m him (le_trans hmn hn)
  obtain ⟨sn', hn', hfn, -⟩ := main n (lt_of_lt_of_le him hmn) hn
  rw [hrm] at hm'
  rw [hrn] at hn'
  simp only [Except.ok.injEq] at hm' hn'
  rw [← hm'] at hfm
  rw [← hn'] at hfn
  omega

/-- C2 witness: a two-invocation sequence observing end of stream at
the first invocation. -/
theorem C2_witness :
    ∃ s1, runChecks exampleConfig exKnownDuration
        (([(5000, true), (100, true)] : List (Nat × Bool)).take 2) = Except.ok s1 ∧
      s1.mCacheFill = 1000 ∧ s1.mCacheStatus = CacheStatus.high :=
  (C2_eos_cache_monotone exampleConfig exKnownDuration (by decide)
    [(5000, true), (100, true)] 0 (by decide)).1 2 (by decide) (by decide)

end SfPlayer
